import Mathlib

/-!
Shallow embedding of the transcript-alignment core of the audio-transcription
service (`audio_transcription/services/transcription_service.py`).

Times are modelled as rationals (the Python code computes with float seconds;
none of the verified properties depend on rounding of binary floats).
Python dicts for segments are modelled as structures; the field `stop` models
the Python key `end` (`end` is a reserved word in Lean).
-/

/-- A diarization segment `{start, end, speaker}`; `stop` models `end`. -/
structure DiarizationSegment where
  start : ℚ
  stop : ℚ
  speaker : String
deriving DecidableEq, Repr

/-- A transcription segment `{start, end, text}`; `stop` models `end`. -/
structure TranscriptSegment where
  start : ℚ
  stop : ℚ
  text : String
deriving DecidableEq, Repr

/-- An aligned output segment `{start, end, text, speaker}`. -/
structure AlignedSegment where
  start : ℚ
  stop : ℚ
  text : String
  speaker : String
deriving DecidableEq, Repr

/-- The Whisper transcription result as consumed by the merge step:
`transcription['segments']`, `transcription['text']`, and the optional
`transcription.get('language', 'en')`. -/
structure Transcription where
  segments : List TranscriptSegment
  text : String
  language : Option String
deriving DecidableEq, Repr

/-- The merged result returned by `_merge_transcription_with_diarization`. -/
structure MergedResult where
  segments : List AlignedSegment
  text : String
  language : String
deriving DecidableEq, Repr

/-- Python `str.strip()` whitespace class (ASCII part): space, tab, newline,
carriage return, vertical tab, form feed. -/
def isPySpace (c : Char) : Bool :=
  c == ' ' || c == '\t' || c == '\n' || c == '\r' || c == '\x0b' || c == '\x0c'

/-- Python `str.strip()`: drop leading and trailing whitespace. -/
def pyStrip (s : String) : String :=
  String.mk (((s.toList.dropWhile isPySpace).reverse.dropWhile isPySpace).reverse)

/-- The overlap test of `_merge_transcription_with_diarization` line 121-122:
`diar_segment['end'] > start_time and diar_segment['start'] < end_time`. -/
def overlapsStrict (d : DiarizationSegment) (ts te : ℚ) : Bool :=
  decide (ts < d.stop) && decide (d.start < te)

/-- The `overlapping_speakers` list built by the inner loop of
`_merge_transcription_with_diarization`: the speakers of the diarization
segments that strictly overlap `(ts, te)`, in diarization order. -/
def overlappingSpeakers (diarization : List DiarizationSegment) (ts te : ℚ) :
    List String :=
  (diarization.filter (fun d => overlapsStrict d ts te)).map (fun d => d.speaker)

/-- Model of `max(set(overlapping_speakers), key=overlapping_speakers.count)`:
an element of the list with maximal occurrence count.  The Python `set`
iteration order is unspecified (string hashing is randomized per process);
`List.argmax` fixes one representative tie-break, which is irrelevant to the
properties proved below (they either assume a unique maximum or only use
membership). -/
def mostCommonSpeaker (xs : List String) : Option String :=
  xs.argmax (fun s => xs.count s)

/-- The per-segment body of the merge loop: build one aligned segment from one
transcript segment, assigning the most common overlapping speaker, or
`"UNKNOWN"` when `overlapping_speakers` is empty. -/
def alignSegment (diarization : List DiarizationSegment)
    (seg : TranscriptSegment) : AlignedSegment :=
  { start := seg.start
    stop := seg.stop
    text := pyStrip seg.text
    speaker := (mostCommonSpeaker
      (overlappingSpeakers diarization seg.start seg.stop)).getD "UNKNOWN" }

/-- `_merge_transcription_with_diarization` (lines 109-139). -/
def merge_transcription_with_diarization (transcription : Transcription)
    (diarization : List DiarizationSegment) : MergedResult :=
  { segments := transcription.segments.map (alignSegment diarization)
    text := transcription.text
    language := transcription.language.getD "en" }

/-- `_simple_diarization` (lines 79-98): buckets at starts
`i ∈ range(0, int(duration_seconds), 10)`, each ending at
`min(i + 10, duration_seconds)`, speaker `SPEAKER_1` when `i % 20 < 10`,
else `SPEAKER_2`.  `range(0, n, 10)` has `(n + 9) / 10` elements. -/
def simple_diarization (durationSeconds : ℚ) : List DiarizationSegment :=
  let n : Nat := (Rat.floor durationSeconds).toNat
  (List.range ((n + 9) / 10)).map (fun k =>
    let i : Nat := 10 * k
    { start := (i : ℚ)
      stop := min ((i + 10 : ℕ) : ℚ) durationSeconds
      speaker := if i % 20 < 10 then "SPEAKER_1" else "SPEAKER_2" })

/-- The diarization step of the orchestrator, combining `_load_models`
(lines 27-39: a failure to load the pipeline is caught and leaves
`diarization_pipeline = None`) with `_perform_diarization` (lines 54-77: a
`None` pipeline, or any inference error, yields `_simple_diarization`).
`loadResult` models the outcome of `Pipeline.from_pretrained`, `inferResult`
the outcome of running the loaded pipeline, and `duration` the audio duration
seen by the fallback. -/
def diarization_step (loadResult : Except String Unit)
    (inferResult : Except String (List DiarizationSegment)) (duration : ℚ) :
    Except String (List DiarizationSegment) :=
  match loadResult with
  | Except.error _ => Except.ok (simple_diarization duration)
  | Except.ok _ =>
    match inferResult with
    | Except.ok segs => Except.ok segs
    | Except.error _ => Except.ok (simple_diarization duration)

/-- The cleanup step of `process_audio` (lines 160-161 and 167-168):
`if os.path.exists(processed) and processed != audio_file_path:
os.remove(processed)`.  The file system is modelled as the list of existing
paths; removing a path removes it from the list. -/
def cleanupNormalized (fs : List String) (processed original : String) :
    List String :=
  if fs.contains processed && !(processed == original) then
    fs.filter (fun q => !(q == processed))
  else fs

/-- `process_audio` (lines 141-169) after normalization has produced
`processed` (already present in `fs`): run transcription (outcome
`transcribeResult`), then the diarization step, then the merge; on success
clean up and return the result, on any failure clean up and re-raise.
Returns the outcome together with the final file-system state. -/
def process_audio (fs : List String) (original processed : String)
    (transcribeResult : Except String Transcription)
    (loadResult : Except String Unit)
    (inferResult : Except String (List DiarizationSegment)) (duration : ℚ) :
    Except String MergedResult × List String :=
  match transcribeResult with
  | Except.error e => (Except.error e, cleanupNormalized fs processed original)
  | Except.ok t =>
    match diarization_step loadResult inferResult duration with
    | Except.error e =>
        (Except.error e, cleanupNormalized fs processed original)
    | Except.ok dsegs =>
        (Except.ok (merge_transcription_with_diarization t dsegs),
         cleanupNormalized fs processed original)

/-- The rational one half, built in lowest terms so that all definitions
evaluate on it by kernel reduction. -/
def halfQ : ℚ := ⟨1, 2, by decide, Nat.coprime_one_left 2⟩

/-- Helper: the merged segment list accesses the transcript segment list
pointwise through `alignSegment`. -/
lemma merge_segments_getElem? (t : Transcription)
    (d : List DiarizationSegment) (i : ℕ) :
    (merge_transcription_with_diarization t d).segments[i]? =
      (t.segments[i]?).map (alignSegment d) := by
  simp [merge_transcription_with_diarization]

/-- Helper: when no diarization segment strictly overlaps `(ts, te)`, the
collected speaker list is empty. -/
lemma overlappingSpeakers_eq_nil (d : List DiarizationSegment) (ts te : ℚ)
    (h : ∀ ds ∈ d, ¬(ts < ds.stop ∧ ds.start < te)) :
    overlappingSpeakers d ts te = [] := by
  unfold overlappingSpeakers
  rw [List.filter_eq_nil_iff.mpr, List.map_nil]
  intro ds hds
  simpa [overlapsStrict] using h ds hds

/-- Claim C1: for every transcription result and every diarization sequence,
the merge produces exactly one aligned segment per transcript segment — the
lengths agree and the i-th aligned segment is obtained from the i-th
transcript segment; no transcript segment is dropped or duplicated. -/
theorem merge_one_aligned_per_transcript (t : Transcription)
    (d : List DiarizationSegment) :
    (merge_transcription_with_diarization t d).segments.length =
      t.segments.length
    ∧ ∀ i : ℕ, (merge_transcription_with_diarization t d).segments[i]? =
      (t.segments[i]?).map (alignSegment d) := by
  constructor
  · simp [merge_transcription_with_diarization]
  · intro i
    exact merge_segments_getElem? t d i

/-- Claim C2: the overlap test is strict (`de > ts` and `ds < te`); whenever
no diarization segment strictly overlaps a transcript segment — in
particular when segments merely touch at an endpoint — the assigned speaker
is `"UNKNOWN"`. -/
theorem speaker_unknown_of_no_strict_overlap (t : Transcription)
    (d : List DiarizationSegment) (i : ℕ) (seg : TranscriptSegment)
    (h : t.segments[i]? = some seg)
    (hno : ∀ ds ∈ d, ¬(seg.start < ds.stop ∧ ds.start < seg.stop)) :
    ∃ a : AlignedSegment,
      (merge_transcription_with_diarization t d).segments[i]? = some a
      ∧ a.speaker = "UNKNOWN" := by
  refine ⟨alignSegment d seg, ?_, ?_⟩
  · rw [merge_segments_getElem? t d i, h, Option.map_some']
  · simp [alignSegment, overlappingSpeakers_eq_nil d seg.start seg.stop hno,
      mostCommonSpeaker, List.argmax_nil]

/-- Witness for C2 at the spec's example: transcript segment `(5, 10)`
against the single diarization segment `(10, 15, "A")` — they touch at 10,
so they do not overlap, and the aligned speaker is `"UNKNOWN"`. -/
theorem speaker_unknown_of_no_strict_overlap_witness :
    ∃ a : AlignedSegment,
      (merge_transcription_with_diarization ⟨[⟨5, 10, "hi"⟩], "hi", none⟩
        [⟨10, 15, "A"⟩]).segments[0]? = some a
      ∧ a.speaker = "UNKNOWN" :=
  speaker_unknown_of_no_strict_overlap ⟨[⟨5, 10, "hi"⟩], "hi", none⟩
    [⟨10, 15, "A"⟩] 0 ⟨5, 10, "hi"⟩ (by decide) (by decide)

/-- Claim C8: the aligned segment's `start` and `end` are copied unchanged
from the transcript segment; diarization boundaries never adjust the output
timing. -/
theorem aligned_timing_copied (t : Transcription)
    (d : List DiarizationSegment) (i : ℕ) (seg : TranscriptSegment)
    (h : t.segments[i]? = some seg) :
    ∃ a : AlignedSegment,
      (merge_transcription_with_diarization t d).segments[i]? = some a
      ∧ a.start = seg.start ∧ a.stop = seg.stop := by
  refine ⟨alignSegment d seg, ?_, rfl, rfl⟩
  rw [merge_segments_getElem? t d i, h, Option.map_some']

/-- Witness for C8: a concrete transcript segment `(3, 7)` keeps its timing
even though the overlapping diarization segment is `(0, 100, "A")`. -/
theorem aligned_timing_copied_witness :
    ∃ a : AlignedSegment,
      (merge_transcription_with_diarization ⟨[⟨3, 7, "t"⟩], "t", none⟩
        [⟨0, 100, "A"⟩]).segments[0]? = some a
      ∧ a.start = (⟨3, 7, "t"⟩ : TranscriptSegment).start
      ∧ a.stop = (⟨3, 7, "t"⟩ : TranscriptSegment).stop :=
  aligned_timing_copied ⟨[⟨3, 7, "t"⟩], "t", none⟩ [⟨0, 100, "A"⟩] 0
    ⟨3, 7, "t"⟩ (by decide)

/-- Claim C9: the aligned segment's text is the transcript segment's text
with leading and trailing whitespace stripped. -/
theorem aligned_text_stripped (t : Transcription)
    (d : List DiarizationSegment) (i : ℕ) (seg : TranscriptSegment)
    (h : t.segments[i]? = some seg) :
    ∃ a : AlignedSegment,
      (merge_transcription_with_diarization t d).segments[i]? = some a
      ∧ a.text = pyStrip seg.text := by
  refine ⟨alignSegment d seg, ?_, rfl⟩
  rw [merge_segments_getElem? t d i, h, Option.map_some']

/-- Witness for C9 at the spec's example: `"  hello world  "` becomes
`"hello world"`. -/
theorem aligned_text_stripped_witness :
    (∃ a : AlignedSegment,
      (merge_transcription_with_diarization
        ⟨[⟨0, 10, "  hello world  "⟩], "x", none⟩ []).segments[0]? = some a
      ∧ a.text = pyStrip "  hello world  ")
    ∧ pyStrip "  hello world  " = "hello world" :=
  ⟨aligned_text_stripped ⟨[⟨0, 10, "  hello world  "⟩], "x", none⟩ [] 0
    ⟨0, 10, "  hello world  "⟩ (by decide), by decide⟩

/-- Helper: `mostCommonSpeaker` returns a member of the list whose count is
maximal. -/
lemma mostCommonSpeaker_spec (xs : List String) (m : String)
    (h : mostCommonSpeaker xs = some m) :
    m ∈ xs ∧ ∀ u ∈ xs, xs.count u ≤ xs.count m := by
  unfold mostCommonSpeaker at h
  constructor
  · exact List.argmax_mem (Option.mem_def.mpr h)
  · intro u hu
    exact List.le_of_mem_argmax hu (Option.mem_def.mpr h)

/-- Helper: on a nonempty list, `mostCommonSpeaker` returns some label. -/
lemma mostCommonSpeaker_isSome (xs : List String) (h : xs ≠ []) :
    ∃ m, mostCommonSpeaker xs = some m := by
  unfold mostCommonSpeaker
  rcases ha : xs.argmax (fun s => xs.count s) with _ | m
  · exact absurd (List.argmax_eq_none.mp ha) h
  · exact ⟨m, rfl⟩

/-- Claim C3: when some speaker label occurs strictly more often than every
other label among the overlapping diarization entries, the aligner assigns
that label (majority vote by occurrence count, independent of durations). -/
theorem speaker_majority_by_count (t : Transcription)
    (d : List DiarizationSegment) (i : ℕ) (seg : TranscriptSegment)
    (s : String) (h : t.segments[i]? = some seg)
    (hs : s ∈ overlappingSpeakers d seg.start seg.stop)
    (hmax : ∀ u ∈ overlappingSpeakers d seg.start seg.stop, u ≠ s →
      (overlappingSpeakers d seg.start seg.stop).count u <
        (overlappingSpeakers d seg.start seg.stop).count s) :
    ∃ a : AlignedSegment,
      (merge_transcription_with_diarization t d).segments[i]? = some a
      ∧ a.speaker = s := by
  refine ⟨alignSegment d seg, ?_, ?_⟩
  · rw [merge_segments_getElem? t d i, h, Option.map_some']
  · obtain ⟨m, hm⟩ := mostCommonSpeaker_isSome
      (overlappingSpeakers d seg.start seg.stop) (List.ne_nil_of_mem hs)
    obtain ⟨hmem, hle⟩ := mostCommonSpeaker_spec _ m hm
    have hms : m = s := by
      by_contra hne
      exact absurd (hle s hs) (not_le_of_lt (hmax m hmem hne))
    simp [alignSegment, hm, hms]

/-- Witness for C3 at the spec's example: transcript `(0, 10)` overlapping
`[(0,3,"A"), (3,6,"B"), (6,9,"B")]` is assigned `"B"` (2 occurrences vs 1),
regardless of durations. -/
theorem speaker_majority_by_count_witness :
    ∃ a : AlignedSegment,
      (merge_transcription_with_diarization ⟨[⟨0, 10, "hey"⟩], "hey", none⟩
        [⟨0, 3, "A"⟩, ⟨3, 6, "B"⟩, ⟨6, 9, "B"⟩]).segments[0]? = some a
      ∧ a.speaker = "B" :=
  speaker_majority_by_count ⟨[⟨0, 10, "hey"⟩], "hey", none⟩
    [⟨0, 3, "A"⟩, ⟨3, 6, "B"⟩, ⟨6, 9, "B"⟩] 0 ⟨0, 10, "hey"⟩ "B"
    (by decide) (by decide) (by decide)

/-- Claim C10: speaker provenance — every aligned segment's speaker is either
the sentinel `"UNKNOWN"` or the label of at least one diarization segment
that strictly overlaps the aligned segment's time interval; the aligner never
fabricates a label. -/
theorem speaker_provenance (t : Transcription)
    (d : List DiarizationSegment) (i : ℕ) (seg : TranscriptSegment)
    (h : t.segments[i]? = some seg) :
    ∃ a : AlignedSegment,
      (merge_transcription_with_diarization t d).segments[i]? = some a
      ∧ (a.speaker = "UNKNOWN" ∨ ∃ ds ∈ d,
          (a.start < ds.stop ∧ ds.start < a.stop) ∧ ds.speaker = a.speaker) := by
  refine ⟨alignSegment d seg, ?_, ?_⟩
  · rw [merge_segments_getElem? t d i, h, Option.map_some']
  · rcases hm : mostCommonSpeaker (overlappingSpeakers d seg.start seg.stop)
      with _ | m
    · left
      simp [alignSegment, hm]
    · right
      obtain ⟨hmem, -⟩ := mostCommonSpeaker_spec _ m hm
      unfold overlappingSpeakers at hmem
      obtain ⟨ds, hds, hspk⟩ := List.mem_map.mp hmem
      obtain ⟨hdsd, hp⟩ := List.mem_filter.mp hds
      refine ⟨ds, hdsd, ?_, ?_⟩
      · simpa [alignSegment, overlapsStrict] using hp
      · simp [alignSegment, hm, hspk]

/-- Witness for C10: transcript `(0, 10)` against diarization
`[(8, 12, "A")]` yields a speaker (`"A"`) that labels a strictly overlapping
diarization segment. -/
theorem speaker_provenance_witness :
    ∃ a : AlignedSegment,
      (merge_transcription_with_diarization ⟨[⟨0, 10, "w"⟩], "w", none⟩
        [⟨8, 12, "A"⟩]).segments[0]? = some a
      ∧ (a.speaker = "UNKNOWN" ∨ ∃ ds ∈ [(⟨8, 12, "A"⟩ : DiarizationSegment)],
          (a.start < ds.stop ∧ ds.start < a.stop) ∧ ds.speaker = a.speaker) :=
  speaker_provenance ⟨[⟨0, 10, "w"⟩], "w", none⟩ [⟨8, 12, "A"⟩] 0
    ⟨0, 10, "w"⟩ (by decide)

/-- Claim C6: the diarization step never propagates an engine error — it
always returns a segment list, and whenever the pipeline failed to load or
inference raised, the result is the deterministic fallback
`simple_diarization` for the audio's duration. -/
theorem diarization_failure_never_propagates (lr : Except String Unit)
    (ir : Except String (List DiarizationSegment)) (dur : ℚ) :
    (∃ segs, diarization_step lr ir dur = Except.ok segs)
    ∧ (∀ e, lr = Except.error e →
        diarization_step lr ir dur = Except.ok (simple_diarization dur))
    ∧ (∀ e, ir = Except.error e →
        diarization_step lr ir dur = Except.ok (simple_diarization dur)) := by
  rcases lr with e | u <;> rcases ir with e' | segs <;>
    simp [diarization_step]

/-- Witness for C6: a failed pipeline load with a successful (unused)
inference outcome yields the fallback segments for a 25-second audio. -/
theorem diarization_failure_never_propagates_witness :
    diarization_step (Except.error "load failed") (Except.ok []) (25 : ℚ) =
      Except.ok (simple_diarization (25 : ℚ)) :=
  (diarization_failure_never_propagates (Except.error "load failed")
    (Except.ok []) (25 : ℚ)).2.1 "load failed" rfl

/-- Helper: the cleanup step removes the processed path whenever it differs
from the original. -/
lemma cleanupNormalized_not_mem (fs : List String) (p o : String)
    (h : p ≠ o) : p ∉ cleanupNormalized fs p o := by
  unfold cleanupNormalized
  by_cases hm : p ∈ fs
  · rw [if_pos (by simp [hm, h])]
    intro hmem
    simp [List.mem_filter] at hmem
  · rw [if_neg (by simp [hm])]
    exact hm

/-- Helper: the cleanup step never removes the original path. -/
lemma cleanupNormalized_mem_original (fs : List String) (p o : String)
    (h : o ∈ fs) : o ∈ cleanupNormalized fs p o := by
  unfold cleanupNormalized
  split
  · next hcond =>
    simp only [Bool.and_eq_true, beq_iff_eq, Bool.not_eq_true', beq_eq_false_iff_ne] at hcond
    exact List.mem_filter.mpr ⟨h, by simp [Ne.symm hcond.2]⟩
  · exact h

/-- Helper: the file-system component of `process_audio` is the cleanup of
the input state on every control path. -/
lemma process_audio_snd (fs : List String) (original processed : String)
    (tr : Except String Transcription) (lr : Except String Unit)
    (ir : Except String (List DiarizationSegment)) (dur : ℚ) :
    (process_audio fs original processed tr lr ir dur).2 =
      cleanupNormalized fs processed original := by
  rcases tr with e | t
  · rfl
  · unfold process_audio
    rcases hd : diarization_step lr ir dur with e | segs <;> simp [hd]

/-- Claim C7: on every exit of `process_audio` after normalization — success
or propagated failure — the normalized-audio artifact no longer exists
whenever it differs from the original input path, and the original input
file is never deleted by this cleanup. -/
theorem process_audio_cleanup_invariant (fs : List String)
    (original processed : String) (tr : Except String Transcription)
    (lr : Except String Unit)
    (ir : Except String (List DiarizationSegment)) (dur : ℚ) :
    (processed ≠ original →
      processed ∉ (process_audio fs original processed tr lr ir dur).2)
    ∧ (original ∈ fs →
      original ∈ (process_audio fs original processed tr lr ir dur).2) := by
  rw [process_audio_snd fs original processed tr lr ir dur]
  exact ⟨fun hne => cleanupNormalized_not_mem fs processed original hne,
    fun hmem => cleanupNormalized_mem_original fs processed original hmem⟩

/-- Witness for C7: with the normalized artifact `"tmp.wav"` distinct from
the original `"orig.mp3"` and a failing transcription, after the call the
artifact is gone and the original still exists. -/
theorem process_audio_cleanup_invariant_witness :
    "tmp.wav" ∉ (process_audio ["orig.mp3", "tmp.wav"] "orig.mp3" "tmp.wav"
      (Except.error "whisper failed") (Except.ok ()) (Except.ok []) 0).2
    ∧ "orig.mp3" ∈ (process_audio ["orig.mp3", "tmp.wav"] "orig.mp3" "tmp.wav"
      (Except.error "whisper failed") (Except.ok ()) (Except.ok []) 0).2 :=
  ⟨(process_audio_cleanup_invariant ["orig.mp3", "tmp.wav"] "orig.mp3"
      "tmp.wav" (Except.error "whisper failed") (Except.ok ())
      (Except.ok []) 0).1 (by decide),
   (process_audio_cleanup_invariant ["orig.mp3", "tmp.wav"] "orig.mp3"
      "tmp.wav" (Except.error "whisper failed") (Except.ok ())
      (Except.ok []) 0).2 (by decide)⟩

/-- Helper: `Rat.floor` of a natural number cast is that number. -/
lemma ratFloor_natCast (d : ℕ) : Rat.floor ((d : ℕ) : ℚ) = (d : ℤ) := by
  simp [Rat.floor_def']

/-- Helper: closed form of the fallback generator at a natural duration. -/
lemma simple_diarization_natCast (d : ℕ) :
    simple_diarization ((d : ℕ) : ℚ) =
      (List.range ((d + 9) / 10)).map (fun k =>
        ⟨((10 * k : ℕ) : ℚ), min ((10 * k + 10 : ℕ) : ℚ) ((d : ℕ) : ℚ),
          if (10 * k) % 20 < 10 then "SPEAKER_1" else "SPEAKER_2"⟩) := by
  unfold simple_diarization
  rw [ratFloor_natCast, Int.toNat_natCast]

/-- Claim C5 counterexample: at duration one half (a positive duration), the
fallback generator produces the empty sequence — `int(0.5) = 0` empties the
`range` — so its output does not cover `[0, 1/2)` and has no final bucket
ending at the duration, contradicting the claimed behavior for every
`D ≥ 0`. -/
theorem simple_diarization_halfQ_empty :
    halfQ = 1 / 2 ∧ 0 < halfQ ∧ simple_diarization halfQ = [] := by
  refine ⟨?_, by decide, by decide⟩
  unfold halfQ
  rw [Rat.mk'_eq_divInt]
  norm_num [Rat.divInt_eq_div]

/-- Claim C5 (amended): for every natural-number duration `d`, the fallback
generator returns `(d + 9) / 10` buckets; the `k`-th starts at `10 k`, ends
at `min (10 k + 10) d`, and is labeled `SPEAKER_1` when `10 k mod 20 < 10`
and `SPEAKER_2` otherwise; the buckets are non-overlapping and contiguous,
they cover `[0, d)`, the final bucket ends exactly at `d`, and `d = 0`
yields the empty sequence.  (For fractional durations the code truncates the
duration before building the `range`, so coverage up to the duration can
fail — see the counterexample at duration `1/2`.) -/
theorem simple_diarization_buckets (d : ℕ) :
    (simple_diarization ((d : ℕ) : ℚ)).length = (d + 9) / 10
    ∧ (∀ k : ℕ, ∀ h : k < (simple_diarization ((d : ℕ) : ℚ)).length,
        ((simple_diarization ((d : ℕ) : ℚ)).get ⟨k, h⟩).start
            = ((10 * k : ℕ) : ℚ)
        ∧ ((simple_diarization ((d : ℕ) : ℚ)).get ⟨k, h⟩).stop
            = min ((10 * k + 10 : ℕ) : ℚ) ((d : ℕ) : ℚ)
        ∧ ((simple_diarization ((d : ℕ) : ℚ)).get ⟨k, h⟩).speaker
            = (if (10 * k) % 20 < 10 then "SPEAKER_1" else "SPEAKER_2"))
    ∧ List.Pairwise (fun a b => a.stop ≤ b.start)
        (simple_diarization ((d : ℕ) : ℚ))
    ∧ (∀ j : ℕ, j + 1 < (simple_diarization ((d : ℕ) : ℚ)).length →
        ((simple_diarization ((d : ℕ) : ℚ))[j + 1]?).map
            DiarizationSegment.start =
          ((simple_diarization ((d : ℕ) : ℚ))[j]?).map DiarizationSegment.stop)
    ∧ (∀ x : ℚ, 0 ≤ x → x < ((d : ℕ) : ℚ) →
        ∃ s ∈ simple_diarization ((d : ℕ) : ℚ), s.start ≤ x ∧ x < s.stop)
    ∧ (0 < d → ((simple_diarization ((d : ℕ) : ℚ)).getLast?).map
        DiarizationSegment.stop = some ((d : ℕ) : ℚ))
    ∧ (d = 0 → simple_diarization ((d : ℕ) : ℚ) = []) := by
  have hL := simple_diarization_natCast d
  refine ⟨?_, ?_, ?_, ?_, ?_, ?_, ?_⟩
  · rw [hL]; simp
  · intro k h
    have hk : k < (d + 9) / 10 := by
      rw [hL] at h; simpa using h
    simp [hL, List.get_eq_getElem, List.getElem_map, List.getElem_range]
  · rw [hL]
    rw [List.pairwise_map]
    refine (List.pairwise_lt_range _).imp ?_
    intro a b hab
    exact le_trans (min_le_left _ _) (Nat.cast_le.mpr (by omega))
  · intro j hj
    rw [hL] at hj
    simp only [List.length_map, List.length_range] at hj
    rw [hL]
    rw [List.getElem?_map, List.getElem?_map,
      List.getElem?_range (by omega : j + 1 < (d + 9) / 10),
      List.getElem?_range (by omega : j < (d + 9) / 10)]
    simp only [Option.map_some']
    have h10 : 10 * j + 10 ≤ d := by omega
    rw [min_eq_left (Nat.cast_le.mpr h10)]
    have : 10 * (j + 1) = 10 * j + 10 := by ring
    rw [this]
  · intro x hx0 hxd
    have hmd : (⌊x⌋₊ : ℕ) < d := (Nat.floor_lt hx0).mpr hxd
    have hk : ⌊x⌋₊ / 10 < (d + 9) / 10 := by omega
    refine ⟨⟨((10 * (⌊x⌋₊ / 10) : ℕ) : ℚ),
        min ((10 * (⌊x⌋₊ / 10) + 10 : ℕ) : ℚ) ((d : ℕ) : ℚ),
        if (10 * (⌊x⌋₊ / 10)) % 20 < 10 then "SPEAKER_1" else "SPEAKER_2"⟩,
      ?_, ?_, ?_⟩
    · rw [hL]
      exact List.mem_map.mpr ⟨⌊x⌋₊ / 10, List.mem_range.mpr hk, rfl⟩
    · show ((10 * (⌊x⌋₊ / 10) : ℕ) : ℚ) ≤ x
      calc ((10 * (⌊x⌋₊ / 10) : ℕ) : ℚ) ≤ (⌊x⌋₊ : ℚ) :=
            Nat.cast_le.mpr (by omega)
        _ ≤ x := Nat.floor_le hx0
    · show x < min ((10 * (⌊x⌋₊ / 10) + 10 : ℕ) : ℚ) ((d : ℕ) : ℚ)
      refine lt_min ?_ hxd
      calc x < (⌊x⌋₊ : ℚ) + 1 := Nat.lt_floor_add_one x
        _ = ((⌊x⌋₊ + 1 : ℕ) : ℚ) := by push_cast; ring
        _ ≤ ((10 * (⌊x⌋₊ / 10) + 10 : ℕ) : ℚ) := Nat.cast_le.mpr (by omega)
  · intro hd0
    rw [hL]
    have hq : 0 < (d + 9) / 10 := by omega
    rw [List.getLast?_eq_getElem?]
    simp only [List.length_map, List.length_range]
    rw [List.getElem?_map,
      List.getElem?_range (by omega : (d + 9) / 10 - 1 < (d + 9) / 10)]
    simp only [Option.map_some']
    have hd10 : d ≤ 10 * ((d + 9) / 10 - 1) + 10 := by omega
    rw [min_eq_right (Nat.cast_le.mpr hd10)]
  · intro hd0
    subst hd0
    rw [hL]
    rfl

/-- Witness for C5 (amended) at duration 25: some fallback bucket covers the
time 12. -/
theorem simple_diarization_buckets_witness :
    ∃ s ∈ simple_diarization ((25 : ℕ) : ℚ),
      s.start ≤ (12 : ℚ) ∧ (12 : ℚ) < s.stop :=
  (simple_diarization_buckets 25).2.2.2.2.1 12 (by decide) (by decide)
